import Mathlib

/-!
Shallow embedding of `transformer_engine/paddle/layer/rmsnorm.py`.

Tensors are modelled as a shape (list of dimension sizes), row-major flat
real-valued data, and Paddle's `stop_gradient` flag.  Python exceptions are
modelled with an explicit error type and `Except`; observable side effects of
construction and of the accelerated path (parameter creation, environment
reads, kernel invocations) are recorded in an event trace.
-/

namespace RMSNormSpec

/-- Python exceptions that the file under study can raise. -/
inductive PyError where
  | assertionError (msg : String)
  | notImplementedError (msg : String)
  | attributeError (msg : String)
  | valueError (msg : String)
  | indexError (msg : String)
  | broadcastError (msg : String)
  deriving DecidableEq, Repr

/-- Decimal digit run parser: `none` on an empty run or any non-digit. -/
def parseDigits (cs : List Char) : Option ℕ :=
  if cs = [] then none
  else cs.foldl
    (fun acc c => acc.bind fun n =>
      if c.isDigit then some (10 * n + (c.toNat - 48)) else none)
    (some 0)

/-- Python's `str.strip()` on a character list: drop whitespace on both ends. -/
def pyStrip (cs : List Char) : List Char :=
  ((cs.dropWhile Char.isWhitespace).reverse.dropWhile Char.isWhitespace).reverse

/-- Python's `int(s)`: strip whitespace, optional sign, decimal digits;
`none` models the `ValueError` raised on any other string. -/
def pyInt (s : String) : Option ℤ :=
  match pyStrip s.toList with
  | '-' :: rest => (parseDigits rest).map fun n => -(n : ℤ)
  | '+' :: rest => (parseDigits rest).map fun n => (n : ℤ)
  | cs => (parseDigits cs).map fun n => (n : ℤ)

/-- `os.getenv(name, default)` over an explicit environment. -/
def osGetenv (env : String → Option String) (name default : String) : String :=
  (env name).getD default

/-- A Paddle tensor: shape, row-major flat data, `stop_gradient` flag. -/
structure PTensor where
  shape : List ℕ
  data : List ℝ
  stop_gradient : Bool

/-- Well-formedness: the flat data holds exactly `shape.prod` entries. -/
def PTensor.wf (t : PTensor) : Prop := t.data.length = t.shape.prod

/-- Row `i` of a row-major matrix with row length `d`. -/
def getRow (d i : ℕ) (data : List ℝ) : List ℝ :=
  (data.drop (i * d)).take d

/-- The `m` rows of length `d` of a row-major flat buffer. -/
def rowsOf (m d : ℕ) (data : List ℝ) : List (List ℝ) :=
  (List.range m).map fun i => getRow d i data

/-- Mean of squares of a row (`paddle.mean(x**2, axis=-1)` on one row). -/
noncomputable def meanSq (row : List ℝ) : ℝ :=
  (row.map fun x => x * x).sum / (row.length : ℝ)

/-- Reciprocal RMS statistic of a row: `1 / sqrt(mean(x²) + eps)`. -/
noncomputable def rrms (eps : ℝ) (row : List ℝ) : ℝ :=
  (Real.sqrt (meanSq row + eps))⁻¹

/-- One output row of the accelerated kernel:
`y_j = x_j * rsigma * γ_j` (or `(1 + γ_j)` under zero-centered gamma). -/
noncomputable def rmsRowOut (eps : ℝ) (zc : Bool) (w row : List ℝ) : List ℝ :=
  List.zipWith (fun x g => x * rrms eps row * (if zc then 1 + g else g)) row w

/-- Modelled from the spec: the external accelerated forward kernel
`rmsnorm_fwd` from `transformer_engine.paddle.cpp_extensions` (not under
`src/`).  Per the spec's interface contract, it maps an input matrix, scale
vector and epsilon to an output matrix of the same shape plus the per-row
reciprocal-RMS statistic; the SM-margin argument only tunes kernel
scheduling and does not affect the mathematical result. -/
noncomputable def rmsnorm_fwd (inputmat : PTensor) (weight : List ℝ) (eps : ℝ)
    (_sm_margin : ℤ) (zero_centered : Bool) : PTensor × List ℝ :=
  let m := inputmat.shape.headD 0
  let d := inputmat.shape.getD 1 0
  let rows := rowsOf m d inputmat.data
  (⟨inputmat.shape, (rows.map (rmsRowOut eps zero_centered weight)).flatten, false⟩,
   rows.map (rrms eps))

/-- Modelled from the spec: the external accelerated backward kernel
`rmsnorm_bwd` (not under `src/`).  The spec only states its interface —
"(output gradient, saved input matrix, reciprocal-RMS statistic, scale
vector, SM margin, zero-centered flag) → (input gradient, scale gradient)" —
and leaves the gradient formulas to the opaque native extension, so only the
shapes of the two gradients are modelled; no claim here depends on their
numeric values. -/
noncomputable def rmsnorm_bwd (d_out inputmat : PTensor) (_rsigma : List ℝ)
    (weight : List ℝ) (_sm_margin : ℤ) (_zero_centered : Bool) :
    PTensor × List ℝ :=
  (⟨inputmat.shape, d_out.data, false⟩, weight)

/-- Observable side effects of construction and of the accelerated path. -/
inductive Event where
  | createParam (shape : List ℕ) (values : List ℝ)
  | markSequenceParallel
  | getenvRead (name : String) (default : String)
  | kernelFwd (sm_margin : ℤ) (zero_centered : Bool)
  | kernelBwd (sm_margin : ℤ) (zero_centered : Bool)

/-- Is this event a read of environment variable `name`? -/
def Event.isGetenvOf (name : String) : Event → Bool
  | .getenvRead n _ => n = name
  | _ => false

/-- Is this event a parameter creation? -/
def Event.isCreateParam : Event → Bool
  | .createParam _ _ => true
  | _ => false

/-- The context object saved by `_RMSNorm.forward` for the paired backward
call (`ctx.save_for_backward` plus the attributes set on `ctx`). -/
structure BwdCtx where
  inputmat : PTensor
  rmsnorm_weight : PTensor
  rsigma : List ℝ
  inp_shape : List ℕ
  bwd_rmsnorm_sm_margin : ℤ
  zero_centered_gamma : Bool
  requires_dx : Bool
  requires_dw : Bool

/-- `_RMSNorm.forward` (the `PyLayer` static method): assert the trailing
dimension matches the weight length, flatten to a matrix, invoke the forward
kernel, save the context, reshape the kernel output back to the input shape.
Returns the event trace alongside the result. -/
noncomputable def funcRMSNormForward (inp rmsnorm_weight : PTensor) (eps : ℝ)
    (fwd_rmsnorm_sm_margin bwd_rmsnorm_sm_margin : ℤ)
    (zero_centered_gamma : Bool) :
    List Event × Except PyError (PTensor × BwdCtx) :=
  let in_features := rmsnorm_weight.shape.headD 0
  match inp.shape.getLast? with
  | none => ([], .error (.indexError "tuple index out of range"))
  | some d =>
    if d = in_features then
      let inputmat : PTensor :=
        ⟨[inp.data.length / in_features, in_features], inp.data,
         inp.stop_gradient⟩
      let fwd := rmsnorm_fwd inputmat rmsnorm_weight.data eps
        fwd_rmsnorm_sm_margin zero_centered_gamma
      let ctx : BwdCtx :=
        ⟨inputmat, rmsnorm_weight, fwd.2, inp.shape, bwd_rmsnorm_sm_margin,
         zero_centered_gamma, !inp.stop_gradient, !rmsnorm_weight.stop_gradient⟩
      ([.kernelFwd fwd_rmsnorm_sm_margin zero_centered_gamma],
       .ok (⟨inp.shape, fwd.1.data, inp.stop_gradient && rmsnorm_weight.stop_gradient⟩, ctx))
    else
      ([], .error (.assertionError "RMSNorm not possible"))

/-- `_RMSNorm.backward`: reshape the output gradient to the saved matrix
shape, invoke the backward kernel, and return the input/scale gradients —
replaced by the no-gradient marker `none` exactly when the corresponding
`requires_*` flag saved in the context is off. -/
noncomputable def funcRMSNormBackward (ctx : BwdCtx) (grad_output : PTensor) :
    List Event × (Option PTensor × Option PTensor) :=
  let d_rmsnorm_out : PTensor :=
    ⟨ctx.inputmat.shape, grad_output.data, grad_output.stop_gradient⟩
  let bwd := rmsnorm_bwd d_rmsnorm_out ctx.inputmat ctx.rsigma
    ctx.rmsnorm_weight.data ctx.bwd_rmsnorm_sm_margin ctx.zero_centered_gamma
  ([.kernelBwd ctx.bwd_rmsnorm_sm_margin ctx.zero_centered_gamma],
   (if ctx.requires_dx then some ⟨ctx.inp_shape, bwd.1.data, false⟩ else none,
    if ctx.requires_dw then some ⟨ctx.rmsnorm_weight.shape, bwd.2, false⟩ else none))

/-- The `RMSNorm` layer after successful construction. -/
structure RMSNorm where
  eps : ℝ
  zero_centered_gamma : Bool
  sequence_parallel : Bool
  backend : String
  weight : PTensor
  fwd_rmsnorm_sm_margin : ℤ
  bwd_rmsnorm_sm_margin : ℤ

/-- `RMSNorm.__init__`: create the weight parameter (initialized by the
supplied attribute, or to `Constant(1.0)` when none is given), optionally
mark it sequence-parallel, then read and parse the two SM-margin environment
variables.  The event trace records effects in source order; an unparsable
variable aborts construction with a `ValueError` at that point. -/
noncomputable def mkRMSNorm (env : String → Option String) (hidden_size : ℕ)
    (eps : ℝ) (weight_attr : Option (List ℝ)) (zero_centered_gamma : Bool)
    (sequence_parallel : Bool) (backend : String) :
    List Event × Except PyError RMSNorm :=
  let initVals := match weight_attr with
    | none => List.replicate hidden_size (1 : ℝ)
    | some v => v
  let weight : PTensor := ⟨[hidden_size], initVals, false⟩
  let ev0 := [Event.createParam [hidden_size] initVals]
  let ev1 := if sequence_parallel then ev0 ++ [Event.markSequenceParallel] else ev0
  let fwdStr := osGetenv env "NVTE_FWD_LAYERNORM_SM_MARGIN" "0"
  let ev2 := ev1 ++ [Event.getenvRead "NVTE_FWD_LAYERNORM_SM_MARGIN" "0"]
  match pyInt fwdStr with
  | none => (ev2, .error (.valueError fwdStr))
  | some f =>
    let bwdStr := osGetenv env "NVTE_BWD_LAYERNORM_SM_MARGIN" "0"
    let ev3 := ev2 ++ [Event.getenvRead "NVTE_BWD_LAYERNORM_SM_MARGIN" "0"]
    match pyInt bwdStr with
    | none => (ev3, .error (.valueError bwdStr))
    | some b =>
      (ev3, .ok ⟨eps, zero_centered_gamma, sequence_parallel, backend, weight, f, b⟩)

/-- `RMSNorm._te_forward`: apply the custom-gradient function with the
layer's stored configuration (the returned context is what the framework
hands to the paired backward call). -/
noncomputable def teForward (l : RMSNorm) (inp : PTensor) :
    List Event × Except PyError (PTensor × BwdCtx) :=
  funcRMSNormForward inp l.weight l.eps l.fwd_rmsnorm_sm_margin
    l.bwd_rmsnorm_sm_margin l.zero_centered_gamma

/-- Paddle elementwise multiply of two rows along the trailing axis, with
NumPy-style broadcasting: equal lengths multiply pointwise, a length-1
operand broadcasts, anything else raises a shape error. -/
noncomputable def broadcastRowMul (a b : List ℝ) : Except PyError (List ℝ) :=
  if a.length = b.length then .ok (List.zipWith (· * ·) a b)
  else if a.length = 1 then .ok (b.map fun y => a.headD 0 * y)
  else if b.length = 1 then .ok (a.map fun x => x * b.headD 0)
  else .error (.broadcastError "broadcast dimension mismatch")

/-- `RMSNorm._pd_forward`: refuse zero-centered gamma, then compute
`norm = rsqrt(mean(inp², axis=-1, keepdim=True) + eps)` and
`y = inp * norm * weight`, where the final multiply follows Paddle's
trailing-axis broadcasting between the input's last dimension and the
weight length. -/
noncomputable def pdForward (l : RMSNorm) (inp : PTensor) :
    Except PyError PTensor :=
  if l.zero_centered_gamma then
    .error (.notImplementedError
      "Paddle backend does not support RMSNorm with zero_centered_gamma.")
  else
    match inp.shape.getLast? with
    | none => .error (.valueError "axis out of range")
    | some d =>
      let m := inp.data.length / d
      let rows := rowsOf m d inp.data
      let normed := rows.map fun r => r.map fun x => x * rrms l.eps r
      match normed.mapM (fun r => broadcastRowMul r l.weight.data) with
      | .error e => .error e
      | .ok outRows =>
        .ok ⟨inp.shape.dropLast ++ [max d (l.weight.data.length)],
             outRows.flatten,
             inp.stop_gradient && l.weight.stop_gradient⟩

/-- `RMSNorm.forward`: dispatch on the backend string; an unrecognized
backend raises `AttributeError`. -/
noncomputable def layerForward (l : RMSNorm) (inp : PTensor) :
    List Event × Except PyError PTensor :=
  if l.backend = "transformer_engine" then
    let r := teForward l inp
    (r.1, r.2.map Prod.fst)
  else if l.backend = "paddle" then
    ([], pdForward l inp)
  else
    ([], .error (.attributeError ("Backend " ++ l.backend ++ " not supported.")))

/-- The empty process environment (neither SM-margin variable set). -/
def envEmpty : String → Option String := fun _ => none

/-- Is an `Except` result a success? -/
def isOkE {ε α : Type} : Except ε α → Bool
  | .ok _ => true
  | .error _ => false

/-- The saved context produced by a successful accelerated forward call. -/
noncomputable def teForwardCtx (inp w : PTensor) (eps : ℝ) (f b : ℤ)
    (zc : Bool) : Option BwdCtx :=
  match (funcRMSNormForward inp w eps f b zc).2 with
  | .ok (_, ctx) => some ctx
  | .error _ => none

/-- A forward/backward pair on the accelerated path: run the forward, then
feed its saved context to the backward step with the given output gradient.
Returns `(none, none)` if the forward itself failed. -/
noncomputable def teBackwardAfter (inp w : PTensor) (eps : ℝ) (f b : ℤ)
    (zc : Bool) (g : PTensor) : Option PTensor × Option PTensor :=
  match (funcRMSNormForward inp w eps f b zc).2 with
  | .ok (_, ctx) => (funcRMSNormBackward ctx g).2
  | .error _ => (none, none)

/-- Placeholder context used only to read off `Option.getD` results. -/
def defaultBwdCtx : BwdCtx :=
  ⟨⟨[], [], false⟩, ⟨[], [], false⟩, [], [], 0, false, false, false⟩

/-- Example layer: feature size 4, eps `1e-5`, scale `[1,1,1,1]`, paddle
backend, zero-centered gamma disabled. -/
noncomputable def exLayer : RMSNorm :=
  ⟨1 / 100000, false, false, "paddle", ⟨[4], [1, 1, 1, 1], false⟩, 0, 0⟩

/-- Example input row `[1,1,1,1]`. -/
def exInput : PTensor := ⟨[4], [1, 1, 1, 1], false⟩

/-- Example input row with `stop_gradient` set. -/
def exInputSG : PTensor := ⟨[4], [1, 1, 1, 1], true⟩

/-- Layer with feature size 1 and the paddle backend: used to exhibit the
broadcasting escape hatch of `_pd_forward`. -/
noncomputable def cexLayer : RMSNorm :=
  ⟨1 / 100000, false, false, "paddle", ⟨[1], [1], false⟩, 0, 0⟩

/-- Input of last dimension 2 — mismatching `cexLayer`'s feature size 1. -/
def cexInput : PTensor := ⟨[2], [3, 4], false⟩

/-- Paddle-backend layer with feature size 2. -/
noncomputable def cexLayer2 : RMSNorm :=
  ⟨1 / 100000, false, false, "paddle", ⟨[2], [1, 1], false⟩, 0, 0⟩

/-- Input of last dimension 3 — broadcast-incompatible with feature size 2. -/
def cexInput3 : PTensor := ⟨[3], [5, 6, 7], false⟩

/-- Input of last dimension 1 — mismatching feature size 2 but broadcastable. -/
def cexInput1 : PTensor := ⟨[1], [5], false⟩

/-- Example layer on the accelerated ('transformer_engine') backend. -/
noncomputable def exLayerTE : RMSNorm :=
  ⟨1 / 100000, false, false, "transformer_engine", ⟨[4], [1, 1, 1, 1], false⟩,
   0, 0⟩

/-- Example three-dimensional input of shape `[2,1,4]`. -/
def exInput3 : PTensor := ⟨[2, 1, 4], [1, 1, 1, 1, 1, 1, 1, 1], false⟩

/-- Example layer with zero-centered gamma enabled on the paddle backend. -/
noncomputable def exLayerZC : RMSNorm :=
  ⟨1 / 100000, true, false, "paddle", ⟨[4], [1, 1, 1, 1], false⟩, 0, 0⟩

/-- Example layer with an unrecognized backend string. -/
noncomputable def exLayerBad : RMSNorm :=
  ⟨1 / 100000, false, false, "pytorch", ⟨[4], [1, 1, 1, 1], false⟩, 0, 0⟩

/-- Environment where the forward SM-margin variable holds a non-integer. -/
def envBadFwd : String → Option String :=
  fun n => if n = "NVTE_FWD_LAYERNORM_SM_MARGIN" then some "abc" else none

/-- Environment setting the two SM-margin variables to "3" and "7". -/
def envMargins : String → Option String :=
  fun n =>
    if n = "NVTE_FWD_LAYERNORM_SM_MARGIN" then some "3"
    else if n = "NVTE_BWD_LAYERNORM_SM_MARGIN" then some "7"
    else none

/-! ### Helper lemmas about rows of a row-major buffer -/

lemma getRow_length {d i : ℕ} {data : List ℝ} (h : (i + 1) * d ≤ data.length) :
    (getRow d i data).length = d := by
  have h' : i * d + d ≤ data.length := by
    calc i * d + d = (i + 1) * d := by ring
    _ ≤ _ := h
  simp only [getRow, List.length_take, List.length_drop]
  omega

lemma rowsOf_length (m d : ℕ) (data : List ℝ) : (rowsOf m d data).length = m := by
  simp [rowsOf]

lemma rowsOf_getElem? {m d : ℕ} {data : List ℝ} {i : ℕ} (hi : i < m) :
    (rowsOf m d data)[i]? = some (getRow d i data) := by
  simp [rowsOf, List.getElem?_range hi]

lemma mem_rowsOf_length {m d : ℕ} {data : List ℝ} (hmd : m * d ≤ data.length) :
    ∀ r ∈ rowsOf m d data, r.length = d := by
  intro r hr
  simp only [rowsOf, List.mem_map, List.mem_range] at hr
  obtain ⟨i, hi, rfl⟩ := hr
  refine getRow_length (le_trans ?_ hmd)
  exact Nat.mul_le_mul_right d hi

lemma getRow_getD {d i j : ℕ} {data : List ℝ} (hj : j < d) :
    (getRow d i data).getD j 0 = data.getD (i * d + j) 0 := by
  simp [getRow, List.getElem?_take_of_lt hj, List.getElem?_drop]

lemma flatten_getD_uniform {d : ℕ} :
    ∀ (rs : List (List ℝ)) (i j : ℕ), (∀ r ∈ rs, r.length = d) →
      i < rs.length → j < d →
      rs.flatten.getD (i * d + j) 0 = (rs[i]?.getD []).getD j 0 := by
  intro rs
  induction rs with
  | nil => intro i j _ hi _; simp at hi
  | cons r rs ih =>
    intro i j hall hi hj
    have hr : r.length = d := hall r (by simp)
    match i with
    | 0 =>
      simp only [List.flatten_cons, Nat.zero_mul, Nat.zero_add,
        List.getD_eq_getElem?_getD, List.getElem?_append_left (hr ▸ hj),
        List.getElem?_cons_zero, Option.getD_some]
    | i + 1 =>
      have hidx : (i + 1) * d + j = r.length + (i * d + j) := by
        rw [hr]; ring
      have hle : r.length ≤ (i + 1) * d + j := by omega
      simp only [List.flatten_cons, List.getD_eq_getElem?_getD,
        List.getElem?_append_right hle, List.getElem?_cons_succ]
      have : (i + 1) * d + j - r.length = i * d + j := by omega
      rw [this]
      have := ih i j (fun r' hr' => hall r' (by simp [hr'])) (by simpa using hi) hj
      simpa [List.getD_eq_getElem?_getD] using this

lemma flatten_length_uniform {d : ℕ} :
    ∀ (rs : List (List ℝ)), (∀ r ∈ rs, r.length = d) →
      rs.flatten.length = rs.length * d := by
  intro rs
  induction rs with
  | nil => intro _; simp
  | cons r rs ih =>
    intro hall
    have hr : r.length = d := hall r (by simp)
    have := ih fun r' hr' => hall r' (by simp [hr'])
    simp only [List.flatten_cons, List.length_append, List.length_cons, this, hr,
      Nat.succ_mul]
    omega

lemma shape_decomp {shape : List ℕ} {h : ℕ} (hd : shape.getLast? = some h) :
    shape = shape.dropLast ++ [h] ∧ shape.prod = shape.dropLast.prod * h := by
  obtain ⟨ys, rfl⟩ := List.getLast?_eq_some_iff.mp hd
  simp [List.prod_append]

lemma wf_rows_count {inp : PTensor} {h : ℕ} (hwf : inp.wf)
    (hd : inp.shape.getLast? = some h) (hpos : 0 < h) :
    (inp.data.length / h) * h = inp.data.length := by
  obtain ⟨-, hprod⟩ := shape_decomp hd
  have hlen : inp.data.length = inp.shape.dropLast.prod * h := by
    rw [show inp.data.length = inp.shape.prod from hwf, hprod]
  rw [hlen, Nat.mul_div_cancel _ hpos]

/-! ### Closed forms of the two execution paths -/

lemma mapM_broadcastRowMul_ok {w : List ℝ} :
    ∀ rs : List (List ℝ), (∀ r ∈ rs, r.length = w.length) →
      rs.mapM (fun r => broadcastRowMul r w) =
        .ok (rs.map fun r => List.zipWith (· * ·) r w) := by
  intro rs
  induction rs with
  | nil => intro _; rfl
  | cons r rs ih =>
    intro hall
    have hr : r.length = w.length := hall r (by simp)
    rw [List.mapM_cons, ih fun r' hr' => hall r' (by simp [hr'])]
    simp [broadcastRowMul, hr, Bind.bind, Except.bind, Pure.pure, Except.pure]

/-- Closed form of `RMSNorm._pd_forward` on a well-formed input whose last
dimension equals the weight length. -/
lemma pdForward_eq_ok {l : RMSNorm} {inp : PTensor} {h : ℕ}
    (hz : l.zero_centered_gamma = false)
    (hwl : l.weight.data.length = h)
    (hd : inp.shape.getLast? = some h)
    (hwf : inp.wf) (hpos : 0 < h) :
    pdForward l inp = .ok
      ⟨inp.shape,
       ((rowsOf (inp.data.length / h) h inp.data).map fun r =>
          List.zipWith (· * ·) (r.map fun x => x * rrms l.eps r)
            l.weight.data).flatten,
       inp.stop_gradient && l.weight.stop_gradient⟩ := by
  have hcount := wf_rows_count hwf hd hpos
  have hall : ∀ r ∈ rowsOf (inp.data.length / h) h inp.data, r.length = h :=
    mem_rowsOf_length (le_of_eq hcount)
  have hmapM := mapM_broadcastRowMul_ok
    (w := l.weight.data)
    ((rowsOf (inp.data.length / h) h inp.data).map fun r =>
      r.map fun x => x * rrms l.eps r)
    (by
      intro r' hr'
      obtain ⟨r, hr, rfl⟩ := List.mem_map.mp hr'
      simp [hall r hr, hwl])
  obtain ⟨hshape, -⟩ := shape_decomp hd
  simp only [pdForward, hz, Bool.false_eq_true, if_false, hd]
  rw [hmapM]
  simp only [List.map_map]
  have hmax : max h l.weight.data.length = h := by rw [hwl]; exact Nat.max_self h
  rw [hmax, ← hshape]
  rfl

/-- Closed form of `_RMSNorm.forward` when the trailing dimension matches. -/
lemma teForward_eq {l : RMSNorm} {inp : PTensor} {h : ℕ}
    (hw : l.weight.shape = [h]) (hd : inp.shape.getLast? = some h) :
    teForward l inp =
      ([.kernelFwd l.fwd_rmsnorm_sm_margin l.zero_centered_gamma],
       .ok (⟨inp.shape,
             ((rowsOf (inp.data.length / h) h inp.data).map
                (rmsRowOut l.eps l.zero_centered_gamma l.weight.data)).flatten,
             inp.stop_gradient && l.weight.stop_gradient⟩,
            ⟨⟨[inp.data.length / h, h], inp.data, inp.stop_gradient⟩, l.weight,
             (rowsOf (inp.data.length / h) h inp.data).map (rrms l.eps),
             inp.shape, l.bwd_rmsnorm_sm_margin, l.zero_centered_gamma,
             !inp.stop_gradient, !l.weight.stop_gradient⟩)) := by
  simp only [teForward, funcRMSNormForward, hw, hd, List.headD_cons, if_true,
    rmsnorm_fwd]
  rfl

/-- The saved context of a successful accelerated forward call records the
gradient-requirement flags (negated `stop_gradient`), the backward SM margin
and the zero-centered flag it was invoked with. -/
lemma teForwardCtx_some {inp w : PTensor} {eps : ℝ} {f b : ℤ} {zc : Bool}
    {ctx : BwdCtx} (h : teForwardCtx inp w eps f b zc = some ctx) :
    ctx.requires_dx = !inp.stop_gradient ∧
    ctx.requires_dw = !w.stop_gradient ∧
    ctx.bwd_rmsnorm_sm_margin = b ∧ ctx.zero_centered_gamma = zc := by
  simp only [teForwardCtx, funcRMSNormForward] at h
  rcases hgl : inp.shape.getLast? with - | d <;> rw [hgl] at h
  · simp at h
  · dsimp only at h
    split at h
    next fst' ctx' heq =>
      injection h with h'
      subst h'
      split at heq
      · injection heq with heq'
        injection heq' with h1 h2
        subst h2
        exact ⟨rfl, rfl, rfl, rfl⟩
      · simp at heq
    next a heq => simp at h

/-- Closed form of `_RMSNorm.backward`: one backward-kernel event with the
saved margin, and each gradient gated by its saved `requires_*` flag. -/
lemma funcBackward_eq (ctx : BwdCtx) (g : PTensor) :
    funcRMSNormBackward ctx g =
      ([.kernelBwd ctx.bwd_rmsnorm_sm_margin ctx.zero_centered_gamma],
       (if ctx.requires_dx then some ⟨ctx.inp_shape, g.data, false⟩ else none,
        if ctx.requires_dw then
          some ⟨ctx.rmsnorm_weight.shape, ctx.rmsnorm_weight.data, false⟩
        else none)) := rfl

/-- A broadcast-incompatible head row makes the whole `mapM` fail. -/
lemma mapM_broadcastRowMul_error {w : List ℝ} (r : List ℝ)
    (rs : List (List ℝ)) (hr : r.length ≠ w.length) (hr1 : r.length ≠ 1)
    (hw1 : w.length ≠ 1) :
    (r :: rs).mapM (fun a => broadcastRowMul a w) =
      .error (.broadcastError "broadcast dimension mismatch") := by
  rw [List.mapM_cons]
  simp [broadcastRowMul, hr, hr1, hw1, Bind.bind, Except.bind]

/-- `_pd_forward` raises the broadcast shape error when the first row's
length and the weight length are broadcast-incompatible. -/
lemma pdForward_error {l : RMSNorm} {inp : PTensor} {d : ℕ} {r : List ℝ}
    {rs : List (List ℝ)}
    (hz : l.zero_centered_gamma = false) (hd : inp.shape.getLast? = some d)
    (hrows : rowsOf (inp.data.length / d) d inp.data = r :: rs)
    (hrlen : r.length = d) (hne : d ≠ l.weight.data.length) (hd1 : d ≠ 1)
    (hw1 : l.weight.data.length ≠ 1) :
    pdForward l inp = .error (.broadcastError "broadcast dimension mismatch") := by
  simp only [pdForward, hz, Bool.false_eq_true, if_false, hd, hrows,
    List.map_cons]
  rw [mapM_broadcastRowMul_error]
  · simp [hrlen, hne]
  · simp [hrlen, hd1]
  · exact hw1

/-- A broadcast-compatible pair of rows (equal lengths, or either of length
1) always multiplies successfully. -/
lemma broadcastRowMul_ok {w r : List ℝ}
    (h : r.length = w.length ∨ r.length = 1 ∨ w.length = 1) :
    ∃ o, broadcastRowMul r w = .ok o := by
  unfold broadcastRowMul
  by_cases h1 : r.length = w.length
  · exact ⟨_, by rw [if_pos h1]⟩
  · by_cases h2 : r.length = 1
    · exact ⟨_, by rw [if_neg h1, if_pos h2]⟩
    · have h3 : w.length = 1 := by tauto
      exact ⟨_, by rw [if_neg h1, if_neg h2, if_pos h3]⟩

/-- If every row is broadcast-compatible with the weight, the whole `mapM`
succeeds. -/
lemma mapM_broadcastRowMul_isOk {w : List ℝ} :
    ∀ rs : List (List ℝ),
      (∀ r ∈ rs, r.length = w.length ∨ r.length = 1 ∨ w.length = 1) →
      ∃ os, rs.mapM (fun a => broadcastRowMul a w) = .ok os := by
  intro rs
  induction rs with
  | nil => exact fun _ => ⟨[], rfl⟩
  | cons r rs ih =>
    intro hall
    obtain ⟨o, ho⟩ := broadcastRowMul_ok (w := w) (hall r (by simp))
    obtain ⟨os, hos⟩ := ih fun r' hr' => hall r' (by simp [hr'])
    refine ⟨o :: os, ?_⟩
    rw [List.mapM_cons, ho, hos]
    simp [Bind.bind, Except.bind, Pure.pure, Except.pure]

/-- Element access into a pointwise product of two rows. -/
lemma zipWith_mul_getD {a b : List ℝ} {j : ℕ} (ha : j < a.length)
    (hb : j < b.length) :
    (List.zipWith (· * ·) a b).getD j 0 = a.getD j 0 * b.getD j 0 := by
  simp [List.getD_eq_getElem?_getD, List.getElem?_zipWith,
    List.getElem?_eq_getElem, ha, hb]

/-- Every event emitted by the accelerated forward path is a forward-kernel
invocation carrying the layer's stored forward SM margin. -/
lemma teForward_trace (l : RMSNorm) (inp : PTensor) :
    ∀ e ∈ (teForward l inp).1,
      e = .kernelFwd l.fwd_rmsnorm_sm_margin l.zero_centered_gamma := by
  intro e he
  simp only [teForward, funcRMSNormForward] at he
  rcases hgl : inp.shape.getLast? with - | d <;> rw [hgl] at he
  · simp at he
  · dsimp only at he
    split at he
    · simp at he
      exact he
    · simp at he

/-- Every event emitted by a forward dispatch is a forward-kernel invocation
with the stored margin; in particular no environment variable is read. -/
lemma layerForward_trace (l : RMSNorm) (inp : PTensor) :
    ∀ e ∈ (layerForward l inp).1,
      e = .kernelFwd l.fwd_rmsnorm_sm_margin l.zero_centered_gamma := by
  intro e he
  by_cases h1 : l.backend = "transformer_engine"
  · simp only [layerForward, h1, if_true] at he
    exact teForward_trace l inp e he
  · by_cases h2 : l.backend = "paddle" <;> simp [layerForward, h1, h2] at he

/-! ### Claim theorems -/

/-- Claim C8: the SM margins are read from the two environment variables at
construction (each exactly once), parsed as integers with `"0"` as the
default for an unset variable, stored in the layer for its whole life, and
passed to every kernel invocation: the forward trace consists only of
forward-kernel events carrying the stored forward margin (and in particular
contains no environment read), and the saved context hands the stored
backward margin to every backward-kernel event. -/
theorem claim_C8 (env : String → Option String) (hidden_size : ℕ) (eps : ℝ)
    (wattr : Option (List ℝ)) (zcg sp : Bool) (backend : String) (f b : ℤ)
    (hf : pyInt (osGetenv env "NVTE_FWD_LAYERNORM_SM_MARGIN" "0") = some f)
    (hbw : pyInt (osGetenv env "NVTE_BWD_LAYERNORM_SM_MARGIN" "0") = some b) :
    ∃ l : RMSNorm,
      (mkRMSNorm env hidden_size eps wattr zcg sp backend).2 = .ok l ∧
      l.fwd_rmsnorm_sm_margin = f ∧ l.bwd_rmsnorm_sm_margin = b ∧
      (env "NVTE_FWD_LAYERNORM_SM_MARGIN" = none → f = 0) ∧
      (env "NVTE_BWD_LAYERNORM_SM_MARGIN" = none → b = 0) ∧
      (mkRMSNorm env hidden_size eps wattr zcg sp backend).1.countP
        (Event.isGetenvOf "NVTE_FWD_LAYERNORM_SM_MARGIN") = 1 ∧
      (mkRMSNorm env hidden_size eps wattr zcg sp backend).1.countP
        (Event.isGetenvOf "NVTE_BWD_LAYERNORM_SM_MARGIN") = 1 ∧
      (∀ inp e, e ∈ (layerForward l inp).1 → e = .kernelFwd f zcg) ∧
      (∀ inp ctx, teForwardCtx inp l.weight l.eps f b zcg = some ctx →
        ∀ g, (funcRMSNormBackward ctx g).1 = [.kernelBwd b zcg]) := by
  refine ⟨⟨eps, zcg, sp, backend,
      ⟨[hidden_size],
       (match wattr with
        | none => List.replicate hidden_size (1 : ℝ)
        | some v => v), false⟩, f, b⟩, ?_, rfl, rfl, ?_, ?_, ?_, ?_, ?_, ?_⟩
  · simp only [mkRMSNorm, hf, hbw]
  · intro h0
    rw [osGetenv, h0, Option.getD_none] at hf
    have h1 : pyInt "0" = some 0 := rfl
    rw [h1] at hf
    exact (Option.some.inj hf).symm
  · intro h0
    rw [osGetenv, h0, Option.getD_none] at hbw
    have h1 : pyInt "0" = some 0 := rfl
    rw [h1] at hbw
    exact (Option.some.inj hbw).symm
  · simp only [mkRMSNorm, hf, hbw]
    cases sp <;>
      simp [Event.isGetenvOf, List.countP_append, List.countP_cons]
  · simp only [mkRMSNorm, hf, hbw]
    cases sp <;>
      simp [Event.isGetenvOf, List.countP_append, List.countP_cons]
  · intro inp e he
    exact layerForward_trace _ inp e he
  · intro inp ctx hctx g
    obtain ⟨-, -, hb, hz⟩ := teForwardCtx_some hctx
    rw [funcBackward_eq, hb, hz]

/-- Witness for C8: `NVTE_FWD_LAYERNORM_SM_MARGIN=3`,
`NVTE_BWD_LAYERNORM_SM_MARGIN=7` yield stored margins 3 and 7. -/
theorem claim_C8_witness :
    ((mkRMSNorm envMargins 4 (1 / 100000 : ℝ) none false false
        "transformer_engine").2.map
      fun l => (l.fwd_rmsnorm_sm_margin, l.bwd_rmsnorm_sm_margin)) =
      .ok ((3 : ℤ), (7 : ℤ)) := by
  obtain ⟨l, hok, hf, hb, -⟩ := claim_C8 envMargins 4 (1 / 100000 : ℝ) none
    false false "transformer_engine" 3 7 rfl rfl
  rw [hok]
  dsimp only [Except.map]
  rw [hf, hb]

/-- Claim C2: on a well-formed input whose last dimension equals the feature
size, both backends return a tensor of exactly the input's shape (with a
matching element count): the accelerated path flattens all leading
dimensions into a matrix `[∏ leading dims, features]` before the kernel call
and reshapes the kernel output back to the input shape, while the
direct-arithmetic path operates on the original shape. -/
theorem claim_C2 (l : RMSNorm) (inp : PTensor) (h : ℕ)
    (hw : l.weight.shape = [h]) (hwl : l.weight.data.length = h)
    (hwf : inp.wf) (hd : inp.shape.getLast? = some h) (hpos : 0 < h) :
    (l.backend = "transformer_engine" →
      ∃ out : PTensor,
        (layerForward l inp).2 = .ok out ∧
        out.shape = inp.shape ∧ out.data.length = inp.data.length ∧
        ∃ ctx, teForwardCtx inp l.weight l.eps l.fwd_rmsnorm_sm_margin
            l.bwd_rmsnorm_sm_margin l.zero_centered_gamma = some ctx ∧
          ctx.inputmat.shape = [inp.shape.dropLast.prod, h] ∧
          ctx.inputmat.data = inp.data) ∧
    (l.backend = "paddle" → l.zero_centered_gamma = false →
      ∃ out : PTensor,
        (layerForward l inp).2 = .ok out ∧
        out.shape = inp.shape ∧ out.data.length = inp.data.length) := by
  have hcount := wf_rows_count hwf hd hpos
  have hall := mem_rowsOf_length (m := inp.data.length / h) (d := h)
    (le_of_eq hcount)
  have hm : inp.data.length / h = inp.shape.dropLast.prod := by
    obtain ⟨-, hprod⟩ := shape_decomp hd
    rw [show inp.data.length = inp.shape.prod from hwf, hprod,
      Nat.mul_div_cancel _ hpos]
  constructor
  · intro hbk
    have hte : funcRMSNormForward inp l.weight l.eps l.fwd_rmsnorm_sm_margin
        l.bwd_rmsnorm_sm_margin l.zero_centered_gamma =
        ([.kernelFwd l.fwd_rmsnorm_sm_margin l.zero_centered_gamma],
         .ok (⟨inp.shape,
               ((rowsOf (inp.data.length / h) h inp.data).map
                  (rmsRowOut l.eps l.zero_centered_gamma l.weight.data)).flatten,
               inp.stop_gradient && l.weight.stop_gradient⟩,
              ⟨⟨[inp.data.length / h, h], inp.data, inp.stop_gradient⟩,
               l.weight,
               (rowsOf (inp.data.length / h) h inp.data).map (rrms l.eps),
               inp.shape, l.bwd_rmsnorm_sm_margin, l.zero_centered_gamma,
               !inp.stop_gradient, !l.weight.stop_gradient⟩)) :=
      teForward_eq hw hd
    refine ⟨⟨inp.shape,
        ((rowsOf (inp.data.length / h) h inp.data).map
           (rmsRowOut l.eps l.zero_centered_gamma l.weight.data)).flatten,
        inp.stop_gradient && l.weight.stop_gradient⟩, ?_, rfl, ?_,
        ⟨⟨[inp.data.length / h, h], inp.data, inp.stop_gradient⟩, l.weight,
         (rowsOf (inp.data.length / h) h inp.data).map (rrms l.eps),
         inp.shape, l.bwd_rmsnorm_sm_margin, l.zero_centered_gamma,
         !inp.stop_gradient, !l.weight.stop_gradient⟩, ?_, ?_, rfl⟩
    · simp only [layerForward, hbk, if_true, teForward, hte]
      rfl
    · show (((rowsOf (inp.data.length / h) h inp.data).map
          (rmsRowOut l.eps l.zero_centered_gamma l.weight.data)).flatten).length =
        inp.data.length
      rw [flatten_length_uniform _ ?_, List.length_map, rowsOf_length, hcount]
      intro r' hr'
      obtain ⟨r, hr, rfl⟩ := List.mem_map.mp hr'
      simp [rmsRowOut, hall r hr, hwl]
    · simp only [teForwardCtx, hte]
    · show ([inp.data.length / h, h] : List ℕ) = [inp.shape.dropLast.prod, h]
      rw [hm]
  · intro hbk hz
    have hpd := pdForward_eq_ok hz hwl hd hwf hpos
    refine ⟨⟨inp.shape,
        ((rowsOf (inp.data.length / h) h inp.data).map fun r =>
           List.zipWith (· * ·) (r.map fun x => x * rrms l.eps r)
             l.weight.data).flatten,
        inp.stop_gradient && l.weight.stop_gradient⟩, ?_, rfl, ?_⟩
    · simp [layerForward, hbk, hpd]
    · show (((rowsOf (inp.data.length / h) h inp.data).map fun r =>
          List.zipWith (· * ·) (r.map fun x => x * rrms l.eps r)
            l.weight.data).flatten).length = inp.data.length
      rw [flatten_length_uniform _ ?_, List.length_map, rowsOf_length, hcount]
      intro r' hr'
      obtain ⟨r, hr, rfl⟩ := List.mem_map.mp hr'
      simp [hall r hr, hwl]

/-- Witness for C2: a `[2,1,4]` input on the accelerated backend keeps its
shape, and the flattened matrix handed to the kernel has shape `[2,4]`. -/
theorem claim_C2_witness :
    ((layerForward exLayerTE exInput3).2.map fun out => out.shape) =
      .ok [2, 1, 4] ∧
    ((teForwardCtx exInput3 exLayerTE.weight exLayerTE.eps
        exLayerTE.fwd_rmsnorm_sm_margin exLayerTE.bwd_rmsnorm_sm_margin
        exLayerTE.zero_centered_gamma).map
      fun ctx => ctx.inputmat.shape) = some [2, 4] := by
  obtain ⟨hte, -⟩ := claim_C2 exLayerTE exInput3 4 rfl rfl rfl rfl
    (by norm_num)
  obtain ⟨out, hout, hshape, -, ctx, hctx, hmat, -⟩ := hte rfl
  constructor
  · rw [hout]
    dsimp only [Except.map]
    rw [hshape]
    rfl
  · rw [hctx]
    dsimp only [Option.map]
    rw [hmat]
    rfl

/-- Counterexample to claim C5 as stated: on the paddle backend with feature
size 1, an input of last dimension 2 does not fail — the final multiply
broadcasts the length-1 weight — so a trailing-dimension mismatch does not
always raise a shape error under either backend. -/
theorem claim_C5_counterexample :
    cexInput.shape.getLast? = some 2 ∧ cexLayer.weight.shape = [1] ∧
    isOkE (layerForward cexLayer cexInput).2 = true :=
  ⟨rfl, rfl, rfl⟩

/-- Claim C5 (amended): a trailing-dimension mismatch always fails
immediately on the accelerated backend (the assertion fires before any
kernel event); on the direct-arithmetic backend it fails with the broadcast
shape error exactly in the broadcast-incompatible case — when neither the
input's last dimension nor the feature size is 1 — while a length-1 operand
is broadcast and the call succeeds. -/
theorem claim_C5_amended (l : RMSNorm) (inp : PTensor) (d h : ℕ)
    (hw : l.weight.shape = [h]) (hwl : l.weight.data.length = h)
    (hd : inp.shape.getLast? = some d) (hne : d ≠ h) :
    (l.backend = "transformer_engine" →
      layerForward l inp =
        ([], .error (.assertionError "RMSNorm not possible"))) ∧
    (l.backend = "paddle" → l.zero_centered_gamma = false → inp.wf →
      0 < inp.data.length → 0 < d → d ≠ 1 → h ≠ 1 →
      layerForward l inp =
        ([], .error (.broadcastError "broadcast dimension mismatch"))) ∧
    (l.backend = "paddle" → l.zero_centered_gamma = false → inp.wf →
      0 < d → (d = 1 ∨ h = 1) →
      ∃ y, layerForward l inp = ([], .ok y)) := by
  refine ⟨?_, ?_, ?_⟩
  · intro hbk
    have hfe : d = l.weight.shape.head?.getD 0 ↔ False := by
      rw [hw]
      simpa using hne
    simp [layerForward, hbk, teForward, funcRMSNormForward, hd, hfe,
      Except.map]
  · intro hbk hz hwf hlen hdpos hd1 hh1
    obtain ⟨-, hprod⟩ := shape_decomp hd
    have hlen' : inp.data.length = inp.shape.dropLast.prod * d := by
      rw [show inp.data.length = inp.shape.prod from hwf, hprod]
    have hP : 0 < inp.shape.dropLast.prod := by
      rcases Nat.eq_zero_or_pos inp.shape.dropLast.prod with h0 | h0
      · rw [h0, Nat.zero_mul] at hlen'
        omega
      · exact h0
    have hm : inp.data.length / d = inp.shape.dropLast.prod := by
      rw [hlen', Nat.mul_div_cancel _ hdpos]
    obtain ⟨k, hk⟩ : ∃ k, inp.shape.dropLast.prod = k + 1 :=
      ⟨_, (Nat.succ_pred_eq_of_pos hP).symm⟩
    have hrows : rowsOf (inp.data.length / d) d inp.data =
        getRow d 0 inp.data ::
          ((List.range k).map Nat.succ).map fun i => getRow d i inp.data := by
      rw [hm, hk, rowsOf, List.range_succ_eq_map]
      simp [List.map_map]
    have hrlen : (getRow d 0 inp.data).length = d :=
      getRow_length (by rw [Nat.one_mul, hlen']; exact Nat.le_mul_of_pos_left d hP)
    have hpd := pdForward_error hz hd hrows hrlen (by rw [hwl]; exact hne)
      hd1 (by rw [hwl]; exact hh1)
    simp [layerForward, hbk, hpd]
  · intro hbk hz hwf hdpos hbc1
    have hcount := wf_rows_count hwf hd hdpos
    have hall := mem_rowsOf_length (m := inp.data.length / d) (d := d)
      (le_of_eq hcount)
    obtain ⟨os, hos⟩ := mapM_broadcastRowMul_isOk
      (w := l.weight.data)
      ((rowsOf (inp.data.length / d) d inp.data).map fun r =>
        r.map fun x => x * rrms l.eps r)
      (by
        intro r' hr'
        obtain ⟨r, hr, rfl⟩ := List.mem_map.mp hr'
        rcases hbc1 with h1 | h1
        · right; left
          simp [hall r hr, h1]
        · right; right
          rw [hwl, h1])
    have hpd : pdForward l inp = .ok
        ⟨inp.shape.dropLast ++ [max d l.weight.data.length], os.flatten,
         inp.stop_gradient && l.weight.stop_gradient⟩ := by
      simp only [pdForward, hz, Bool.false_eq_true, if_false, hd]
      rw [hos]
    refine ⟨⟨inp.shape.dropLast ++ [max d l.weight.data.length], os.flatten,
      inp.stop_gradient && l.weight.stop_gradient⟩, ?_⟩
    simp [layerForward, hbk, hpd]

/-- Witness for the amended C5: a `[2]`-shaped input on the accelerated
feature-size-4 layer hits the assertion, a `[3]`-shaped input on a paddle
feature-size-2 layer hits the broadcast error, and a `[1]`-shaped input on
the same mismatched layer succeeds by broadcasting. -/
theorem claim_C5_amended_witness :
    layerForward exLayerTE cexInput =
      ([], .error (.assertionError "RMSNorm not possible")) ∧
    layerForward cexLayer2 cexInput3 =
      ([], .error (.broadcastError "broadcast dimension mismatch")) ∧
    (∃ y, layerForward cexLayer2 cexInput1 = ([], .ok y)) := by
  refine ⟨?_, ?_, ?_⟩
  · exact (claim_C5_amended exLayerTE cexInput 2 4 rfl rfl rfl
      (by decide)).1 rfl
  · exact (claim_C5_amended cexLayer2 cexInput3 3 2 rfl rfl rfl
      (by decide)).2.1 rfl rfl rfl (by decide) (by decide) (by decide)
      (by decide)
  · exact (claim_C5_amended cexLayer2 cexInput1 1 2 rfl rfl rfl
      (by decide)).2.2 rfl rfl rfl (by decide) (Or.inl rfl)

/-- Claim C1: the paddle backend with zero-centered gamma disabled computes
`y = x * rsqrt(mean(x² over the last axis) + eps) * scale` elementwise; and
concretely, for feature size 4, eps = 1e-5, unit scale and input row
`[1,1,1,1]`, every output entry lies within 1/1000 of 1. -/
theorem claim_C1 (l : RMSNorm) (inp : PTensor) (h : ℕ)
    (hb : l.backend = "paddle") (hz : l.zero_centered_gamma = false)
    (hwl : l.weight.data.length = h) (hwf : inp.wf)
    (hd : inp.shape.getLast? = some h) (hpos : 0 < h) :
    (∃ y : PTensor,
      layerForward l inp = ([], .ok y) ∧
      ∀ i j : ℕ, i < inp.data.length / h → j < h →
        y.data.getD (i * h + j) 0 =
          inp.data.getD (i * h + j) 0 *
            (Real.sqrt (meanSq (getRow h i inp.data) + l.eps))⁻¹ *
            l.weight.data.getD j 0) ∧
    (∃ z : PTensor,
      layerForward exLayer exInput = ([], .ok z) ∧
      z.data.length = 4 ∧ ∀ v ∈ z.data, |v - 1| < 1 / 1000) := by
  have hcount := wf_rows_count hwf hd hpos
  have hall := mem_rowsOf_length (m := inp.data.length / h) (d := h)
    (le_of_eq hcount)
  have hpd := pdForward_eq_ok hz hwl hd hwf hpos
  constructor
  · refine ⟨⟨inp.shape,
        ((rowsOf (inp.data.length / h) h inp.data).map fun r =>
           List.zipWith (· * ·) (r.map fun x => x * rrms l.eps r)
             l.weight.data).flatten,
        inp.stop_gradient && l.weight.stop_gradient⟩, ?_, ?_⟩
    · simp [layerForward, hb, hpd]
    · intro i j hi hj
      have hrowlen : ∀ r' ∈ (rowsOf (inp.data.length / h) h inp.data).map
          fun r => List.zipWith (· * ·) (r.map fun x => x * rrms l.eps r)
            l.weight.data, r'.length = h := by
        intro r' hr'
        obtain ⟨r, hr, rfl⟩ := List.mem_map.mp hr'
        simp [hall r hr, hwl]
      have hflat := flatten_getD_uniform _ i j hrowlen
        (by rw [List.length_map, rowsOf_length]; exact hi) hj
      rw [show (((rowsOf (inp.data.length / h) h inp.data).map fun r =>
          List.zipWith (· * ·) (r.map fun x => x * rrms l.eps r)
            l.weight.data).flatten).getD (i * h + j) 0 =
          ((((rowsOf (inp.data.length / h) h inp.data).map fun r =>
            List.zipWith (· * ·) (r.map fun x => x * rrms l.eps r)
              l.weight.data)[i]?).getD []).getD j 0 from hflat]
      rw [List.getElem?_map, rowsOf_getElem? hi]
      have hirow : (getRow h i inp.data).length = h :=
        getRow_length (le_of_le_of_eq (Nat.mul_le_mul_right h hi) hcount)
      rw [show ((some (getRow h i inp.data)).map fun r =>
          List.zipWith (· * ·) (r.map fun x => x * rrms l.eps r)
            l.weight.data).getD [] =
          List.zipWith (· * ·)
            ((getRow h i inp.data).map fun x =>
              x * rrms l.eps (getRow h i inp.data))
            l.weight.data from rfl]
      rw [zipWith_mul_getD (by rw [List.length_map, hirow]; exact hj)
        (by rw [hwl]; exact hj)]
      rw [show ((getRow h i inp.data).map
          fun x => x * rrms l.eps (getRow h i inp.data)).getD j 0 =
          (getRow h i inp.data).getD j 0 *
            rrms l.eps (getRow h i inp.data) from ?_]
      · rw [getRow_getD hj, rrms]
      · simp [List.getD_eq_getElem?_getD, List.getElem?_eq_getElem,
          hirow ▸ hj]
  · refine ⟨⟨[4], [1 * rrms (1 / 100000) [1, 1, 1, 1] * 1,
        1 * rrms (1 / 100000) [1, 1, 1, 1] * 1,
        1 * rrms (1 / 100000) [1, 1, 1, 1] * 1,
        1 * rrms (1 / 100000) [1, 1, 1, 1] * 1], false⟩, rfl, rfl, ?_⟩
    have hs0 : (0 : ℝ) ≤ 1 + 1 / 100000 := by norm_num
    have hs2 : Real.sqrt (1 + 1 / 100000) ^ 2 = 1 + 1 / 100000 :=
      Real.sq_sqrt hs0
    have hs_pos : 0 < Real.sqrt (1 + 1 / 100000) :=
      Real.sqrt_pos.mpr (by norm_num)
    have hval : rrms (1 / 100000) [1, 1, 1, 1] =
        (Real.sqrt (1 + 1 / 100000))⁻¹ := by
      rw [rrms, meanSq]
      norm_num
    have hinv_pos : 0 < (Real.sqrt (1 + 1 / 100000))⁻¹ :=
      inv_pos.mpr hs_pos
    have hmul : Real.sqrt (1 + 1 / 100000) *
        (Real.sqrt (1 + 1 / 100000))⁻¹ = 1 :=
      mul_inv_cancel₀ hs_pos.ne'
    have h1 : 1 ≤ Real.sqrt (1 + 1 / 100000) := by nlinarith
    have h2 : Real.sqrt (1 + 1 / 100000) ≤ 1.001 := by nlinarith
    have hle : (Real.sqrt (1 + 1 / 100000))⁻¹ ≤ 1 := by nlinarith
    have hgt : (0.999 : ℝ) < (Real.sqrt (1 + 1 / 100000))⁻¹ := by nlinarith
    intro v hv
    have hveq : v = rrms (1 / 100000) [1, 1, 1, 1] := by
      simp only [List.mem_cons, List.not_mem_nil, or_false] at hv
      rcases hv with hv | hv | hv | hv <;> rw [hv] <;> ring
    rw [hveq, hval, abs_sub_lt_iff]
    constructor <;> nlinarith

/-- Witness for C1: at feature size 4, eps 1e-5, unit scale and input row
`[1,1,1,1]`, the first output entry is exactly
`1 * rsqrt(mean-square + eps) * 1`. -/
theorem claim_C1_witness :
    ((layerForward exLayer exInput).2.map fun y => y.data.getD 0 0) =
      .ok ((1 : ℝ) *
        (Real.sqrt (meanSq (getRow 4 0 exInput.data) + exLayer.eps))⁻¹ *
        (1 : ℝ)) := by
  obtain ⟨⟨y, hy, hform⟩, -⟩ := claim_C1 exLayer exInput 4 rfl rfl rfl rfl
    rfl (by norm_num)
  have h0 := hform 0 0 (by decide) (by decide)
  rw [hy]
  dsimp only [Except.map]
  simpa [exInput, exLayer] using h0

/-- Claim C4: over a forward/backward pair on the accelerated path, the
backward step returns the no-gradient marker in place of the input gradient
exactly when the input tensor was marked `stop_gradient`, and in place of
the scale gradient exactly when the scale was so marked — each decided by
that tensor's own flag, for all four combinations. -/
theorem claim_C4 (inp w : PTensor) (eps : ℝ) (f b : ℤ) (zc : Bool)
    (g : PTensor)
    (hok : isOkE (funcRMSNormForward inp w eps f b zc).2 = true) :
    ((teBackwardAfter inp w eps f b zc g).1 = none ↔
      inp.stop_gradient = true) ∧
    ((teBackwardAfter inp w eps f b zc g).2 = none ↔
      w.stop_gradient = true) := by
  cases hfe : (funcRMSNormForward inp w eps f b zc).2 with
  | error e => rw [hfe] at hok; simp [isOkE] at hok
  | ok p =>
    obtain ⟨out, ctx⟩ := p
    have hctx : teForwardCtx inp w eps f b zc = some ctx := by
      simp [teForwardCtx, hfe]
    obtain ⟨hdx, hdw, -, -⟩ := teForwardCtx_some hctx
    simp only [teBackwardAfter, hfe, funcBackward_eq, hdx, hdw]
    cases hsg : inp.stop_gradient <;> cases hsw : w.stop_gradient <;> simp

/-- Witness for C4: input marked `stop_gradient`, scale not — the backward
pair returns `none` for the input gradient and a tensor for the scale
gradient. -/
theorem claim_C4_witness :
    (teBackwardAfter exInputSG exInput (1 / 100000 : ℝ) 0 0 false
        exInput).1 = none ∧
    (teBackwardAfter exInputSG exInput (1 / 100000 : ℝ) 0 0 false
        exInput).2 ≠ none := by
  have h := claim_C4 exInputSG exInput (1 / 100000 : ℝ) 0 0 false exInput rfl
  refine ⟨h.1.mpr rfl, fun hc => ?_⟩
  exact absurd (h.2.mp hc) (by decide)

/-- Claim C9: the gradient-requirement flags are captured into the saved
context at forward time (as the negation of each tensor's `stop_gradient`
flag at that moment), and the backward decision is a function of the saved
context alone. -/
theorem claim_C9 (inp w : PTensor) (eps : ℝ) (f b : ℤ) (zc : Bool)
    (ctx : BwdCtx) (h : teForwardCtx inp w eps f b zc = some ctx) :
    ctx.requires_dx = !inp.stop_gradient ∧
    ctx.requires_dw = !w.stop_gradient ∧
    ∀ g, ((funcRMSNormBackward ctx g).2.1 = none ↔
            ctx.requires_dx = false) ∧
         ((funcRMSNormBackward ctx g).2.2 = none ↔
            ctx.requires_dw = false) := by
  obtain ⟨hdx, hdw, -, -⟩ := teForwardCtx_some h
  refine ⟨hdx, hdw, fun g => ?_⟩
  rw [funcBackward_eq]
  cases hrx : ctx.requires_dx <;> cases hrw : ctx.requires_dw <;> simp

/-- Witness for C9 at a concrete forward call: the saved flags reflect the
forward-time `stop_gradient` markers. -/
theorem claim_C9_witness :
    ((teForwardCtx exInputSG exInput (1 / 100000 : ℝ) 0 0 false).getD
        defaultBwdCtx).requires_dx = false ∧
    ((teForwardCtx exInputSG exInput (1 / 100000 : ℝ) 0 0 false).getD
        defaultBwdCtx).requires_dw = true := by
  have h := claim_C9 exInputSG exInput (1 / 100000 : ℝ) 0 0 false
    ((teForwardCtx exInputSG exInput (1 / 100000 : ℝ) 0 0 false).getD
      defaultBwdCtx) rfl
  exact ⟨by rw [h.1]; rfl, by rw [h.2.1]; rfl⟩

/-- Claim C6: with the direct-arithmetic ('paddle') backend and zero-centered
gamma enabled, every forward call raises the `NotImplementedError` — for any
input whatsoever, so no tensor arithmetic (and not even the shape check) can
have run. -/
theorem claim_C6 (l : RMSNorm) (inp : PTensor)
    (hb : l.backend = "paddle") (hz : l.zero_centered_gamma = true) :
    layerForward l inp =
      ([], .error (.notImplementedError
        "Paddle backend does not support RMSNorm with zero_centered_gamma.")) := by
  have hne : l.backend ≠ "transformer_engine" := by rw [hb]; decide
  simp [layerForward, hne, hb, pdForward, hz]

/-- Witness for C6 at a concrete layer and input. -/
theorem claim_C6_witness :
    layerForward exLayerZC exInput =
      ([], .error (.notImplementedError
        "Paddle backend does not support RMSNorm with zero_centered_gamma.")) :=
  claim_C6 exLayerZC exInput rfl rfl

/-- Claim C7: an unrecognized backend selector does not fail at construction
(the check is lazy); every forward invocation then raises the
`AttributeError`. -/
theorem claim_C7 (env : String → Option String) (hidden_size : ℕ) (eps : ℝ)
    (wattr : Option (List ℝ)) (zcg sp : Bool) (backend : String) (f b : ℤ)
    (hb1 : backend ≠ "transformer_engine") (hb2 : backend ≠ "paddle")
    (hf : pyInt (osGetenv env "NVTE_FWD_LAYERNORM_SM_MARGIN" "0") = some f)
    (hbw : pyInt (osGetenv env "NVTE_BWD_LAYERNORM_SM_MARGIN" "0") = some b) :
    ∃ l : RMSNorm,
      (mkRMSNorm env hidden_size eps wattr zcg sp backend).2 = .ok l ∧
      l.backend = backend ∧
      ∀ inp, layerForward l inp =
        ([], .error (.attributeError
          ("Backend " ++ backend ++ " not supported."))) := by
  refine ⟨⟨eps, zcg, sp, backend,
      ⟨[hidden_size],
       (match wattr with
        | none => List.replicate hidden_size (1 : ℝ)
        | some v => v), false⟩, f, b⟩, ?_, rfl, ?_⟩
  · simp only [mkRMSNorm, hf, hbw]
  · intro inp
    simp [layerForward, hb1, hb2]

/-- Witness for C7: backend string "pytorch", empty environment. -/
theorem claim_C7_witness :
    ∃ l : RMSNorm,
      (mkRMSNorm envEmpty 4 (1 / 100000 : ℝ) none false false "pytorch").2 =
        .ok l ∧
      l.backend = "pytorch" ∧
      ∀ inp, layerForward l inp =
        ([], .error (.attributeError "Backend pytorch not supported.")) :=
  claim_C7 envEmpty 4 (1 / 100000 : ℝ) none false false "pytorch" 0 0
    (by decide) (by decide) rfl rfl

/-- Claim C10: if an SM-margin environment variable holds a string that does
not parse as an integer, construction fails with a `ValueError` (no fallback
to the zero default), and the trace shows the scale parameter was already
created. -/
theorem claim_C10 (env : String → Option String) (hidden_size : ℕ) (eps : ℝ)
    (wattr : Option (List ℝ)) (zcg sp : Bool) (backend : String) (s : String) :
    (env "NVTE_FWD_LAYERNORM_SM_MARGIN" = some s → pyInt s = none →
      (mkRMSNorm env hidden_size eps wattr zcg sp backend).2 =
        .error (.valueError s) ∧
      (mkRMSNorm env hidden_size eps wattr zcg sp backend).1.countP
        Event.isCreateParam = 1) ∧
    (∀ f : ℤ,
      pyInt (osGetenv env "NVTE_FWD_LAYERNORM_SM_MARGIN" "0") = some f →
      env "NVTE_BWD_LAYERNORM_SM_MARGIN" = some s → pyInt s = none →
      (mkRMSNorm env hidden_size eps wattr zcg sp backend).2 =
        .error (.valueError s) ∧
      (mkRMSNorm env hidden_size eps wattr zcg sp backend).1.countP
        Event.isCreateParam = 1) := by
  constructor
  · intro henv hbad
    have hstr : osGetenv env "NVTE_FWD_LAYERNORM_SM_MARGIN" "0" = s := by
      simp [osGetenv, henv]
    constructor
    · simp only [mkRMSNorm, hstr, hbad]
    · simp only [mkRMSNorm, hstr, hbad]
      cases sp <;> simp [Event.isCreateParam, List.countP_append, List.countP_cons]
  · intro f hf henv hbad
    have hstr : osGetenv env "NVTE_BWD_LAYERNORM_SM_MARGIN" "0" = s := by
      simp [osGetenv, henv]
    constructor
    · simp only [mkRMSNorm, hf, hstr, hbad]
    · simp only [mkRMSNorm, hf, hstr, hbad]
      cases sp <;> simp [Event.isCreateParam, List.countP_append, List.countP_cons]

/-- Witness for C10: `NVTE_FWD_LAYERNORM_SM_MARGIN=abc` aborts construction
with `ValueError "abc"` after the parameter-creation event. -/
theorem claim_C10_witness :
    (mkRMSNorm envBadFwd 4 (1 / 100000 : ℝ) none false false
        "transformer_engine").2 = .error (.valueError "abc") ∧
    (mkRMSNorm envBadFwd 4 (1 / 100000 : ℝ) none false false
        "transformer_engine").1.countP Event.isCreateParam = 1 :=
  (claim_C10 envBadFwd 4 (1 / 100000 : ℝ) none false false
    "transformer_engine" "abc").1 rfl rfl

/-- Claim C3 (code bug): constructing the layer with zero-centered gamma
enabled and no explicit weight attribute still initializes the scale to all
ones (`Constant(1.0)` is used unconditionally), not to the all-zeros that
the layer's own docstring prescribes for `zero_centered_gamma=True`. -/
theorem claim_C3 :
    ((mkRMSNorm envEmpty 4 (1 / 100000 : ℝ) none true false "paddle").2.map
        fun l => l.weight.data) = .ok [1, 1, 1, 1] ∧
    ((mkRMSNorm envEmpty 4 (1 / 100000 : ℝ) none true false "paddle").2.map
        fun l => l.weight.data) ≠ .ok (List.replicate 4 (0 : ℝ)) := by
  have h1 : ((mkRMSNorm envEmpty 4 (1 / 100000 : ℝ) none true false
      "paddle").2.map fun l => l.weight.data) = .ok [1, 1, 1, 1] := rfl
  refine ⟨h1, ?_⟩
  rw [h1]
  intro hcontra
  simp only [List.replicate, Except.ok.injEq, List.cons.injEq] at hcontra
  exact one_ne_zero hcontra.1

end RMSNormSpec
